import Mathlib

/-!
# cosmos_reverb: control path of `src/cosmos.cpp`

A shallow embedding of the encoder poll (`ProcessEncoder`), of the envelope
follower (`UpdateEnvelope`) and of the audio callback (`AudioCallback`: the
sample loop and the screen choice), followed by theorems about them.

Modelling conventions.
* `float` values are exact rationals (`ℚ`); rounding is not modelled.
* `uint32_t` values are naturals below `2^32`; every clock read and every
  subtraction is reduced modulo `2^32` explicitly.
* `int` values are integers; sums are wrapped to 32 bits two's complement and
  the C++ `%` operator is the truncating remainder `Int.tmod`.
* The hardware reads of one poll (`Increment`, `RisingEdge`, `Pressed` and the
  up to four calls of `System::GetNow`) are the fields of `Poll`.
* `*params[currentParam]` is defined only for an index inside the array, so
  `ProcessEncoder` returns an `Option`.
* The reverb classes are not part of the source file; `AudioCallback` takes
  them as a parameter (`DspLib`) and records every call it makes on them.
-/

namespace Cosmos

/-! ## Data model (cosmos.cpp lines 17-40) -/

/-- The two reverb algorithms, `enum ReverbMode { PLATE, NEBULAE }`. -/
inductive ReverbMode where
  | PLATE
  | NEBULAE
deriving DecidableEq, Repr

/-- The global variables that `ProcessEncoder` and the screen choice use. -/
structure State where
  activeMode : ReverbMode
  decay : ℚ
  modDepth : ℚ
  dampingFreq : ℚ
  modRate : ℚ
  currentParam : Int
  lastParamChangeTime : Nat
  showMenu : Bool
  selectedMode : Int
  encoderPressStart : Nat

/-- The values of the globals at program start (their initialisers). -/
def initState : State :=
  { activeMode := ReverbMode.PLATE
    decay := 1 / 2
    modDepth := 1 / 2
    dampingFreq := 3 / 10
    modRate := 3 / 10
    currentParam := 0
    lastParamChangeTime := 0
    showMenu := false
    selectedMode := 0
    encoderPressStart := 0 }

/-- Number of parameters, `constexpr int kNumParams = 4`. -/
def kNumParams : Int := 4

/-- Time the parameter screen stays up, `paramDisplayTimeout = 3000` ms. -/
def paramDisplayTimeout : Nat := 3000

/-- Hold time of a long press, `longPressDuration = 1000` ms. -/
def longPressDuration : Nat := 1000

/-! ## Machine arithmetic -/

/-- Reduction of a natural number to a `uint32_t`. -/
def u32 (n : Nat) : Nat := n % 4294967296

/-- Subtraction of two `uint32_t` values, modulo `2^32`. -/
def subU32 (a b : Nat) : Nat := (u32 a + 4294967296 - u32 b) % 4294967296

/-- Wrap of an integer to a 32 bit two's complement `int`. -/
def i32 (x : Int) : Int := (x + 2147483648) % 4294967296 - 2147483648

/-- Modelled from the spec: `fclamp` of the DSP library is not under `src/`;
the spec gives it as `clamp(v, 0, 1)`, the library as `fmin(fmax(v, lo), hi)`. -/
def fclamp (v lo hi : ℚ) : ℚ := min (max v lo) hi

/-! ## Inputs of one poll -/

/-- What one run of `ProcessEncoder` reads from the hardware: the encoder
increment, the rising-edge flag, the held flag, and the clock value returned by
each of the four `System::GetNow()` call sites (line 159, 161, 184, 190). -/
structure Poll where
  inc : Int
  pressed : Bool
  held : Bool
  nowArm : Nat
  nowCheck : Nat
  nowRotate : Nat
  nowClick : Nat

/-- A poll during which the clock shows the same time `t` at every read. -/
def pollAt (t : Nat) (inc : Int) (pressed held : Bool) : Poll :=
  { inc := inc, pressed := pressed, held := held
    nowArm := t, nowCheck := t, nowRotate := t, nowClick := t }

/-! ## Parameter array `float* params[kNumParams]` (line 25) -/

/-- Read of `*params[i]`; undefined outside the four-element array. -/
def readParam (s : State) (i : Int) : Option ℚ :=
  if i = 0 then some s.decay
  else if i = 1 then some s.modDepth
  else if i = 2 then some s.dampingFreq
  else if i = 3 then some s.modRate
  else none

/-- Write of `*params[i] = v`; undefined outside the four-element array. -/
def writeParam (s : State) (i : Int) (v : ℚ) : Option State :=
  if i = 0 then some { s with decay := v }
  else if i = 1 then some { s with modDepth := v }
  else if i = 2 then some { s with dampingFreq := v }
  else if i = 3 then some { s with modRate := v }
  else none

/-! ## `ProcessEncoder` (lines 152-193) -/

/-- Lines 158-159: a held button with no recorded press start records the clock. -/
def armPress (s : State) (p : Poll) : State :=
  if p.held = true ∧ s.encoderPressStart = 0 then
    { s with encoderPressStart := u32 p.nowArm }
  else s

/-- Condition of the `if` at line 161, evaluated after lines 158-159: the poll
takes the long-press branch. -/
def longPressFires (s : State) (p : Poll) : Bool :=
  decide (0 < (armPress s p).encoderPressStart ∧
    longPressDuration < subU32 p.nowCheck (armPress s p).encoderPressStart)

/-- Lines 158-165: press tracking followed by the long-press check. -/
def checkLongPress (s : State) (p : Poll) : State :=
  if longPressFires s p = true then
    { armPress s p with showMenu := true, encoderPressStart := 0 }
  else armPress s p

/-- Mode that a highlight index commits, `selectedMode == 0 ? PLATE : NEBULAE`. -/
def modeOfIndex (i : Int) : ReverbMode :=
  if i = 0 then ReverbMode.PLATE else ReverbMode.NEBULAE

/-- Value of the enumerators: `PLATE` is 0 and `NEBULAE` is 1. -/
def modeIndex : ReverbMode → Int
  | ReverbMode.PLATE => 0
  | ReverbMode.NEBULAE => 1

/-- Line 170: `(selectedMode + inc + 2) % 2` on `int`. -/
def rotateMode (sel inc : Int) : Int :=
  (i32 (i32 (sel + inc) + 2)).tmod 2

/-- Lines 169-170: a non-zero increment moves the menu highlight. -/
def menuRotate (s : State) (p : Poll) : State :=
  if p.inc ≠ 0 then { s with selectedMode := rotateMode s.selectedMode p.inc } else s

/-- Lines 172-176: a click commits the highlighted mode and closes the menu. -/
def menuClick (s : State) (p : Poll) : State :=
  if p.pressed = true then
    { s with activeMode := modeOfIndex s.selectedMode, showMenu := false }
  else s

/-- Lines 167-177: the branch taken while the menu is shown. -/
def menuBranch (s : State) (p : Poll) : State :=
  menuClick (menuRotate s p) p

/-- Lines 182-183: `*params[currentParam] += inc * 0.01f` followed by the clamp
of the stored value to `[0, 1]`. -/
def adjustParam (s : State) (inc : Int) : Option State :=
  (readParam s s.currentParam).bind fun v =>
  (writeParam s s.currentParam (v + (inc : ℚ) * (1 / 100))).bind fun s1 =>
  (readParam s1 s1.currentParam).bind fun w =>
  writeParam s1 s1.currentParam (fclamp w 0 1)

/-- Lines 180-185: a non-zero increment adjusts the selected parameter and
stamps the time of the change. -/
def paramRotate (s : State) (p : Poll) : Option State :=
  if p.inc ≠ 0 then
    (adjustParam s p.inc).map fun r => { r with lastParamChangeTime := u32 p.nowRotate }
  else some s

/-- Lines 187-191: a click selects the next parameter and stamps the time. -/
def paramClick (s : State) (p : Poll) : State :=
  if p.pressed = true then
    { s with currentParam := (i32 (s.currentParam + 1)).tmod kNumParams
             lastParamChangeTime := u32 p.nowClick }
  else s

/-- Lines 178-192: the branch taken while the menu is not shown. -/
def paramBranch (s : State) (p : Poll) : Option State :=
  (paramRotate s p).map fun s1 => paramClick s1 p

/-- One run of `ProcessEncoder`. -/
def ProcessEncoder (s : State) (p : Poll) : Option State :=
  let s1 := checkLongPress s p
  if s1.showMenu = true then some (menuBranch s1 p) else paramBranch s1 p

/-- The main loop: `ProcessEncoder` run once for each poll of the list. -/
def runPolls (s : State) : List Poll → Option State
  | [] => some s
  | p :: ps => (ProcessEncoder s p).bind (fun s1 => runPolls s1 ps)

/-- For each poll of a run, whether it took the long-press branch. The log ends
where a poll has no defined result. -/
def fireLog (s : State) : List Poll → List Bool
  | [] => []
  | p :: ps =>
    longPressFires s p ::
      (match ProcessEncoder s p with
       | some s1 => fireLog s1 ps
       | none => [])

/-- For each poll of a run, whether `showMenu` was set at line 167, that is,
whether the poll was processed by the menu branch. The log ends where a poll has
no defined result. -/
def menuLog (s : State) : List Poll → List Bool
  | [] => []
  | p :: ps =>
    (checkLongPress s p).showMenu ::
      (match ProcessEncoder s p with
       | some s1 => menuLog s1 ps
       | none => [])

/-! ## Screen choice of `AudioCallback` (lines 219-226) -/

/-- The four draw routines. -/
inductive Screen where
  | ReverbMenu
  | ParameterScreen
  | PlateVisualization
  | NebulaeVisualization
deriving DecidableEq, Repr

/-- The draw routine that `AudioCallback` calls after the sample loop, given the
clock value `now` that `System::GetNow()` returns at line 221. -/
def AudioCallbackDraw (s : State) (now : Nat) : Screen :=
  if s.showMenu = true then Screen.ReverbMenu
  else if subU32 now s.lastParamChangeTime < paramDisplayTimeout then Screen.ParameterScreen
  else if s.activeMode = ReverbMode.PLATE then Screen.PlateVisualization
  else Screen.NebulaeVisualization

/-! ## Reachable states and the state invariant -/

/-- States the main loop can be in: the start state, closed under polls. -/
inductive Reachable : State → Prop where
  | init : Reachable initState
  | step {s s1 : State} {p : Poll} : Reachable s → ProcessEncoder s p = some s1 → Reachable s1

/-- All four parameter values lie in `[0, 1]`. -/
def ParamsInRange (s : State) : Prop :=
  (0 ≤ s.decay ∧ s.decay ≤ 1) ∧ (0 ≤ s.modDepth ∧ s.modDepth ≤ 1) ∧
  (0 ≤ s.dampingFreq ∧ s.dampingFreq ≤ 1) ∧ (0 ≤ s.modRate ∧ s.modRate ≤ 1)

/-- The selected parameter index designates an element of `params`. -/
def IndexInRange (s : State) : Prop := 0 ≤ s.currentParam ∧ s.currentParam < 4

/-- While the menu is closed, the highlight index designates the active mode. -/
def MenuAgrees (s : State) : Prop :=
  s.showMenu = false → modeOfIndex s.selectedMode = s.activeMode

/-- State after a click at clock 1 from the start state: the next parameter is
selected and the press start is recorded. -/
def clickedState : State :=
  { initState with currentParam := 1, lastParamChangeTime := 1, encoderPressStart := 1 }

/-- A state with the menu open, `PLATE` active and `PLATE` highlighted. -/
def menuState : State :=
  { initState with showMenu := true }

/-! ## Envelope follower (lines 42-52) -/

/-- New value of the global `envelope` after `UpdateEnvelope(wetL, wetR)`:
`0.95f * envelope + 0.05f * (fabsf(wetL) + fabsf(wetR))`. -/
def UpdateEnvelope (envelope wetL wetR : ℚ) : ℚ :=
  (19 / 20) * envelope + (1 / 20) * (|wetL| + |wetR|)

/-- The envelope after one `UpdateEnvelope` call for each wet pair of the list,
in order, starting from the value `envelope`. -/
def runEnvelope (envelope : ℚ) : List (ℚ × ℚ) → ℚ
  | [] => envelope
  | w :: ws => runEnvelope (UpdateEnvelope envelope w.1 w.2) ws

/-! ## `AudioCallback` (lines 195-227) -/

/-- The reverb classes `PlateReverb` and `FeedbackDelayNetwork` are not under
`src/`. They are black boxes: a type of object states and one function for each
member function that `AudioCallback` calls. -/
structure DspLib where
  PlateReverb : Type
  FeedbackDelayNetwork : Type
  plateSetDecay : PlateReverb → ℚ → PlateReverb
  plateProcess : PlateReverb → ℚ → ℚ × PlateReverb
  fdnSetFeedback : FeedbackDelayNetwork → ℚ → FeedbackDelayNetwork
  fdnProcess : FeedbackDelayNetwork → ℚ → ℚ × FeedbackDelayNetwork

/-- The globals that the sample loop of `AudioCallback` changes: the three
reverb objects and the envelope. -/
structure AudioState (L : DspLib) where
  plateReverbL : L.PlateReverb
  plateReverbR : L.PlateReverb
  fdnReverb : L.FeedbackDelayNetwork
  envelope : ℚ

/-- A call that `AudioCallback` makes on a reverb object or to a draw routine,
with its argument. -/
inductive Call where
  | plateReverbL_SetDecay (d : ℚ)
  | plateReverbL_Process (x : ℚ)
  | plateReverbR_SetDecay (d : ℚ)
  | plateReverbR_Process (x : ℚ)
  | fdnReverb_SetFeedback (f : ℚ)
  | fdnReverb_Process (x : ℚ)
  | Draw (sc : Screen)
deriving DecidableEq

/-- Result of part of a callback: the audio globals, the output frames written
so far, and the calls made so far, in order. -/
structure AudioResult (L : DspLib) where
  audio : AudioState L
  out : List (ℚ × ℚ)
  calls : List Call

/-- Lines 199-216: the loop body for one input frame `(inL, inR)`. -/
def processFrame (L : DspLib) (s : State) (a : AudioState L) (frame : ℚ × ℚ) :
    AudioResult L :=
  if s.activeMode = ReverbMode.PLATE then
    let l1 := L.plateSetDecay a.plateReverbL s.decay
    let wl := L.plateProcess l1 frame.1
    let wr := L.plateProcess a.plateReverbR frame.2
    { audio := { a with plateReverbL := wl.2, plateReverbR := wr.2
                        envelope := UpdateEnvelope a.envelope wl.1 wr.1 }
      out := [(frame.1 * (3 / 10) + wl.1 * (7 / 10), frame.2 * (3 / 10) + wr.1 * (7 / 10))]
      calls := [Call.plateReverbL_SetDecay s.decay, Call.plateReverbL_Process frame.1,
                Call.plateReverbR_Process frame.2] }
  else
    let f1 := L.fdnSetFeedback a.fdnReverb (s.decay * (9 / 10))
    let wl := L.fdnProcess f1 frame.1
    let wr := L.fdnProcess wl.2 frame.2
    { audio := { a with fdnReverb := wr.2
                        envelope := UpdateEnvelope a.envelope wl.1 wr.1 }
      out := [(frame.1 * (3 / 10) + wl.1 * (7 / 10), frame.2 * (3 / 10) + wr.1 * (7 / 10))]
      calls := [Call.fdnReverb_SetFeedback (s.decay * (9 / 10)), Call.fdnReverb_Process frame.1,
                Call.fdnReverb_Process frame.2] }

/-- Lines 197-217: the sample loop over the frames of the block. -/
def sampleLoop (L : DspLib) (s : State) (a : AudioState L) : List (ℚ × ℚ) → AudioResult L
  | [] => { audio := a, out := [], calls := [] }
  | frame :: frames =>
    let r := processFrame L s a frame
    let rest := sampleLoop L s r.audio frames
    { audio := rest.audio, out := r.out ++ rest.out, calls := r.calls ++ rest.calls }

/-- One run of `AudioCallback` on a block of input frames: the sample loop,
then the one draw call of lines 219-226. `now` is the clock value of line 221.
The control globals `s` are not written by the callback. -/
def AudioCallback (L : DspLib) (s : State) (a : AudioState L) (block : List (ℚ × ℚ))
    (now : Nat) : AudioResult L :=
  let r := sampleLoop L s a block
  { r with calls := r.calls ++ [Call.Draw (AudioCallbackDraw s now)] }

/-- A stand-in for the reverb library in which an object is the decay (or
feedback) setting it holds, and `Process` scales its input by that setting. -/
def gainLib : DspLib :=
  { PlateReverb := ℚ
    FeedbackDelayNetwork := ℚ
    plateSetDecay := fun _ d => d
    plateProcess := fun g x => (g * x, g)
    fdnSetFeedback := fun _ f => f
    fdnProcess := fun g x => (g * x, g) }

/-- Audio globals of `gainLib` with every setting at `0` and the envelope at `0`. -/
def gainAudio : AudioState gainLib :=
  { plateReverbL := (0 : ℚ), plateReverbR := (0 : ℚ), fdnReverb := (0 : ℚ), envelope := 0 }

/-- A state with the menu open, `PLATE` active and `NEBULAE` highlighted. -/
def menuNebulaeState : State :=
  { initState with showMenu := true, selectedMode := 1 }

/-! ## Frame lemmas for the stages of a poll -/

theorem armPress_frame (s : State) (p : Poll) :
    ∃ n, armPress s p = { s with encoderPressStart := n } := by
  unfold armPress
  split_ifs <;> exact ⟨_, rfl⟩

theorem checkLongPress_frame (s : State) (p : Poll) :
    ∃ b n, checkLongPress s p = { s with showMenu := b, encoderPressStart := n } := by
  obtain ⟨n, hn⟩ := armPress_frame s p
  unfold checkLongPress
  split_ifs
  · exact ⟨true, 0, by rw [hn]⟩
  · exact ⟨s.showMenu, n, by rw [hn]⟩

theorem menuBranch_frame (s : State) (p : Poll) :
    ∃ m b k, menuBranch s p = { s with activeMode := m, showMenu := b, selectedMode := k } := by
  unfold menuBranch menuClick menuRotate
  split_ifs <;> exact ⟨_, _, _, rfl⟩

theorem fclamp_range (v : ℚ) : 0 ≤ fclamp v 0 1 ∧ fclamp v 0 1 ≤ 1 := by
  unfold fclamp
  exact ⟨le_min (le_max_right v 0) zero_le_one, min_le_right _ _⟩

theorem adjustParam_spec (s : State) (inc : Int) (hi : IndexInRange s) :
    ∃ s1, adjustParam s inc = some s1 ∧ s1.currentParam = s.currentParam ∧
      s1.activeMode = s.activeMode ∧ s1.showMenu = s.showMenu ∧
      s1.selectedMode = s.selectedMode ∧ s1.encoderPressStart = s.encoderPressStart ∧
      s1.lastParamChangeTime = s.lastParamChangeTime ∧
      (ParamsInRange s → ParamsInRange s1) := by
  obtain ⟨h0, h4⟩ := hi
  have hc : s.currentParam = 0 ∨ s.currentParam = 1 ∨ s.currentParam = 2 ∨ s.currentParam = 3 := by
    omega
  have hr := fclamp_range
  rcases hc with h | h | h | h <;>
    simp [adjustParam, readParam, writeParam, h, ParamsInRange, hr] <;> tauto

theorem next_index_range (c : Int) (h0 : 0 ≤ c) (h4 : c < 4) :
    (i32 (c + 1)).tmod kNumParams = (c + 1) % 4 ∧
      0 ≤ (i32 (c + 1)).tmod kNumParams ∧ (i32 (c + 1)).tmod kNumParams < 4 := by
  have hc : c = 0 ∨ c = 1 ∨ c = 2 ∨ c = 3 := by omega
  rcases hc with h | h | h | h <;> subst h <;> decide

theorem paramRotate_spec (s : State) (p : Poll) (hi : IndexInRange s) :
    ∃ s1, paramRotate s p = some s1 ∧ s1.currentParam = s.currentParam ∧
      (ParamsInRange s → ParamsInRange s1) ∧
      s1.activeMode = s.activeMode ∧ s1.showMenu = s.showMenu ∧
      s1.selectedMode = s.selectedMode ∧ s1.encoderPressStart = s.encoderPressStart := by
  obtain ⟨a, ha, hcp, hm, hsm, hsel, hst, -, hpr⟩ := adjustParam_spec s p.inc hi
  unfold paramRotate
  split_ifs with h
  · rw [ha]
    exact ⟨_, rfl, hcp, hpr, hm, hsm, hsel, hst⟩
  · exact ⟨s, rfl, rfl, id, rfl, rfl, rfl, rfl⟩

theorem paramClick_spec (s : State) (p : Poll) (hi : IndexInRange s) :
    IndexInRange (paramClick s p) ∧ (ParamsInRange s → ParamsInRange (paramClick s p)) ∧
      (paramClick s p).activeMode = s.activeMode ∧ (paramClick s p).showMenu = s.showMenu ∧
      (paramClick s p).selectedMode = s.selectedMode ∧
      (paramClick s p).encoderPressStart = s.encoderPressStart := by
  have hn := next_index_range s.currentParam hi.1 hi.2
  unfold paramClick
  split_ifs
  · exact ⟨⟨hn.2.1, hn.2.2⟩, id, rfl, rfl, rfl, rfl⟩
  · exact ⟨hi, id, rfl, rfl, rfl, rfl⟩

theorem paramBranch_spec (s : State) (p : Poll) (hi : IndexInRange s) :
    ∃ s1, paramBranch s p = some s1 ∧ IndexInRange s1 ∧
      (ParamsInRange s → ParamsInRange s1) ∧
      s1.activeMode = s.activeMode ∧ s1.showMenu = s.showMenu ∧
      s1.selectedMode = s.selectedMode ∧ s1.encoderPressStart = s.encoderPressStart := by
  obtain ⟨m, hmeq, mcp, mpr, mm, msm, msel, mst⟩ := paramRotate_spec s p hi
  have hmi : IndexInRange m := ⟨mcp ▸ hi.1, mcp ▸ hi.2⟩
  obtain ⟨ci, cpr, cm, csm, csel, cst⟩ := paramClick_spec m p hmi
  unfold paramBranch
  rw [hmeq]
  exact ⟨_, rfl, ci, fun h => cpr (mpr h), cm.trans mm, csm.trans msm, csel.trans msel,
    cst.trans mst⟩

theorem checkLongPress_showMenu (s : State) (p : Poll) :
    (checkLongPress s p).showMenu = (s.showMenu || longPressFires s p) := by
  obtain ⟨n, hn⟩ := armPress_frame s p
  unfold checkLongPress
  split_ifs with h
  · simp [h]
  · have hf : longPressFires s p = false := by simpa using h
    rw [hn, hf]
    simp

theorem menuBranch_agrees (s : State) (p : Poll) (h : s.showMenu = true) :
    MenuAgrees (menuBranch s p) := by
  unfold MenuAgrees menuBranch menuClick menuRotate
  split_ifs <;> simp [h]

theorem ProcessEncoder_spec (s : State) (p : Poll) (hi : IndexInRange s) :
    ∃ s1, ProcessEncoder s p = some s1 ∧ IndexInRange s1 ∧
      (ParamsInRange s → ParamsInRange s1) ∧ (MenuAgrees s → MenuAgrees s1) := by
  obtain ⟨b, n, hc⟩ := checkLongPress_frame s p
  have hci : IndexInRange (checkLongPress s p) := by rw [hc]; exact hi
  have hcp : ParamsInRange s → ParamsInRange (checkLongPress s p) := by rw [hc]; exact id
  unfold ProcessEncoder
  dsimp only
  split_ifs with h
  · obtain ⟨m, b1, k, hm⟩ := menuBranch_frame (checkLongPress s p) p
    refine ⟨_, rfl, ?_, ?_, fun _ => menuBranch_agrees _ p h⟩
    · rw [hm]; exact hci
    · intro hp; rw [hm]; exact hcp hp
  · obtain ⟨s1, h1, i1, p1, m1, sm1, sel1, -⟩ := paramBranch_spec (checkLongPress s p) p hci
    refine ⟨s1, h1, i1, fun hp => p1 (hcp hp), ?_⟩
    intro hag hs1
    have hsm : s.showMenu = false := by
      have := checkLongPress_showMenu s p
      rw [sm1] at hs1
      rw [hs1] at this
      cases hsv : s.showMenu
      · rfl
      · rw [hsv] at this; simp at this
    have := hag hsm
    rw [sel1, m1, hc]
    exact this

theorem runPolls_spec (ps : List Poll) :
    ∀ s : State, IndexInRange s →
      ∃ s1, runPolls s ps = some s1 ∧ IndexInRange s1 ∧
        (ParamsInRange s → ParamsInRange s1) ∧ (MenuAgrees s → MenuAgrees s1) := by
  induction ps with
  | nil => intro s hi; exact ⟨s, rfl, hi, id, id⟩
  | cons p ps ih =>
    intro s hi
    obtain ⟨s1, h1, i1, p1, a1⟩ := ProcessEncoder_spec s p hi
    obtain ⟨s2, h2, i2, p2, a2⟩ := ih s1 i1
    refine ⟨s2, ?_, i2, fun h => p2 (p1 h), fun h => a2 (a1 h)⟩
    simp [runPolls, h1, h2]

theorem initState_index : IndexInRange initState := by
  unfold IndexInRange initState; decide

theorem initState_params : ParamsInRange initState := by
  unfold ParamsInRange initState; norm_num

theorem initState_agrees : MenuAgrees initState := by
  intro _; rfl

theorem reachable_inv (s : State) (h : Reachable s) :
    IndexInRange s ∧ ParamsInRange s ∧ MenuAgrees s := by
  induction h with
  | init => exact ⟨initState_index, initState_params, initState_agrees⟩
  | step _ hstep ih =>
    obtain ⟨s2, h2, i2, p2, a2⟩ := ProcessEncoder_spec _ _ ih.1
    rw [h2] at hstep
    cases hstep
    exact ⟨i2, p2 ih.2.1, a2 ih.2.2⟩

/-- C1. Starting from the initial parameter values (0.5, 0.5, 0.3, 0.3), every
sequence of `ProcessEncoder` polls, whatever the increments, the rising-edge and
held flags and the clock values, runs to a state in which each of `decay`,
`modDepth`, `dampingFreq` and `modRate` lies in `[0, 1]`. Every prefix of a
sequence is itself a sequence, so this holds after every poll. -/
theorem params_in_range_after_every_poll (ps : List Poll) :
    ∃ s, runPolls initState ps = some s ∧
      (0 ≤ s.decay ∧ s.decay ≤ 1) ∧ (0 ≤ s.modDepth ∧ s.modDepth ≤ 1) ∧
      (0 ≤ s.dampingFreq ∧ s.dampingFreq ≤ 1) ∧ (0 ≤ s.modRate ∧ s.modRate ≤ 1) := by
  obtain ⟨s, hs, -, hp, -⟩ := runPolls_spec ps initState initState_index
  exact ⟨s, hs, hp initState_params⟩

/-! ## Long press -/

theorem u32_idem (n : Nat) : u32 (u32 n) = u32 n := by
  unfold u32; omega

theorem subU32_u32_right (a b : Nat) : subU32 a (u32 b) = subU32 a b := by
  unfold subU32; rw [u32_idem]

theorem armPress_of_armed (s : State) (p : Poll) (h : 0 < s.encoderPressStart) :
    armPress s p = s := by
  unfold armPress
  rw [if_neg]
  intro hc
  omega

theorem armPress_of_idle (s : State) (p : Poll) (hh : p.held = true)
    (h : s.encoderPressStart = 0) :
    armPress s p = { s with encoderPressStart := u32 p.nowArm } := by
  unfold armPress
  rw [if_pos ⟨hh, h⟩]

theorem ProcessEncoder_no_fire (s : State) (p : Poll) (hi : IndexInRange s)
    (hf : longPressFires s p = false) :
    ∃ s1, ProcessEncoder s p = some s1 ∧ IndexInRange s1 ∧
      s1.encoderPressStart = (armPress s p).encoderPressStart := by
  obtain ⟨n, hn⟩ := armPress_frame s p
  have hc : checkLongPress s p = armPress s p := by
    unfold checkLongPress
    rw [hf]
    simp
  have hai : IndexInRange (armPress s p) := by rw [hn]; exact hi
  unfold ProcessEncoder
  dsimp only
  rw [hc]
  split_ifs with h
  · obtain ⟨m, b1, k, hm⟩ := menuBranch_frame (armPress s p) p
    refine ⟨_, rfl, ?_, ?_⟩
    · rw [hm]; exact hai
    · rw [hm]
  · obtain ⟨s1, h1, i1, -, -, -, -, e1⟩ := paramBranch_spec (armPress s p) p hai
    exact ⟨s1, h1, i1, e1⟩

theorem longPressFires_armed (s : State) (p : Poll) (h : 0 < s.encoderPressStart) :
    longPressFires s p = decide (longPressDuration < subU32 p.nowCheck s.encoderPressStart) := by
  unfold longPressFires
  rw [armPress_of_armed s p h]
  simp [h]

theorem armed_run_no_fire (qs : List Poll) :
    ∀ s : State, IndexInRange s → 0 < s.encoderPressStart →
      (∀ r ∈ qs, subU32 r.nowCheck s.encoderPressStart ≤ longPressDuration) →
      ∃ s1, runPolls s qs = some s1 ∧ IndexInRange s1 ∧
        s1.encoderPressStart = s.encoderPressStart ∧
        fireLog s qs = List.replicate qs.length false := by
  induction qs with
  | nil => intro s hi _ _; exact ⟨s, rfl, hi, rfl, rfl⟩
  | cons r qs ih =>
    intro s hi harm hall
    have hr := hall r (List.mem_cons_self r qs)
    have hf : longPressFires s r = false := by
      rw [longPressFires_armed s r harm]
      simpa using hr
    obtain ⟨s1, h1, i1, e1⟩ := ProcessEncoder_no_fire s r hi hf
    rw [armPress_of_armed s r harm] at e1
    obtain ⟨s2, h2, i2, e2, f2⟩ := ih s1 i1 (by rw [e1]; exact harm)
      (fun x hx => by rw [e1]; exact hall x (List.mem_cons_of_mem r hx))
    refine ⟨s2, ?_, i2, e2.trans e1, ?_⟩
    · simp [runPolls, h1, h2]
    · simp [fireLog, h1, hf, f2, List.replicate_succ]

theorem fireLog_append (ps qs : List Poll) :
    ∀ s s1 : State, runPolls s ps = some s1 →
      fireLog s (ps ++ qs) = fireLog s ps ++ fireLog s1 qs := by
  induction ps with
  | nil => intro s s1 h; simp [runPolls] at h; subst h; simp [fireLog]
  | cons p ps ih =>
    intro s s1 h
    cases hp : ProcessEncoder s p with
    | none => simp [runPolls, hp] at h
    | some s2 =>
      have h2 : runPolls s2 ps = some s1 := by simpa [runPolls, hp] using h
      simp [fireLog, hp, ih s2 s1 h2]

/-- C2 (amended). Start with no press in progress (`encoderPressStart = 0`) and
a selected index inside the array. Let the button be first seen held by a poll
whose clock read `t0` is not the value 0, and let it stay held on every later
poll. Then none of the polls whose check-time clock read `t` has
`t - t0 <= 1000` (in `uint32_t` arithmetic) takes the long-press branch, and
the first poll with `t - t0 > 1000` takes it and sets `showMenu`. -/
theorem long_press_threshold (s : State) (p0 : Poll) (qs : List Poll) (q : Poll)
    (hidx : IndexInRange s) (hidle : s.encoderPressStart = 0)
    (hstart : 0 < u32 p0.nowArm)
    (hearly : ∀ r ∈ p0 :: qs,
      r.held = true ∧ subU32 r.nowCheck p0.nowArm ≤ longPressDuration)
    (hlate : q.held = true ∧ longPressDuration < subU32 q.nowCheck p0.nowArm) :
    fireLog s (p0 :: qs ++ [q]) = List.replicate (qs.length + 1) false ++ [true] ∧
      (runPolls s (p0 :: qs)).map (fun sq => (checkLongPress sq q).showMenu) = some true := by
  have h0 := hearly p0 (List.mem_cons_self p0 qs)
  have ha : armPress s p0 = { s with encoderPressStart := u32 p0.nowArm } :=
    armPress_of_idle s p0 h0.1 hidle
  have hf0 : longPressFires s p0 = false := by
    unfold longPressFires
    rw [ha]
    simp only [subU32_u32_right]
    simpa using fun _ => h0.2
  obtain ⟨s1, h1, i1, e1⟩ := ProcessEncoder_no_fire s p0 hidx hf0
  rw [ha] at e1
  have e1 : s1.encoderPressStart = u32 p0.nowArm := e1
  obtain ⟨s2, h2, i2, e2, f2⟩ := armed_run_no_fire qs s1 i1 (by rw [e1]; exact hstart)
    (fun x hx => by
      rw [e1, subU32_u32_right]
      exact (hearly x (List.mem_cons_of_mem p0 hx)).2)
  have hrun : runPolls s (p0 :: qs) = some s2 := by simp [runPolls, h1, h2]
  have hlog : fireLog s (p0 :: qs) = List.replicate (qs.length + 1) false := by
    simp [fireLog, h1, hf0, f2, List.replicate_succ]
  have harm2 : 0 < s2.encoderPressStart := by rw [e2, e1]; exact hstart
  have hfq : longPressFires s2 q = true := by
    rw [longPressFires_armed s2 q harm2, e2, e1, subU32_u32_right]
    simpa using hlate.2
  constructor
  · have := fireLog_append (p0 :: qs) [q] s s2 hrun
    rw [this, hlog]
    simp only [fireLog, hfq]
    cases ProcessEncoder s2 q <;> rfl
  · rw [hrun]
    simp [checkLongPress, hfq]

/-- Instance of C2: press seen at clock 5, polls at 500 and 1005 (elapsed 1000)
do not take the long-press branch, the poll at 1006 (elapsed 1001) does. -/
theorem long_press_threshold_witness :
    fireLog initState
        [pollAt 5 0 false true, pollAt 500 0 false true, pollAt 1005 0 false true,
         pollAt 1006 0 false true] = [false, false, false, true] ∧
      (runPolls initState
        [pollAt 5 0 false true, pollAt 500 0 false true, pollAt 1005 0 false true]).map
        (fun sq => (checkLongPress sq (pollAt 1006 0 false true)).showMenu) = some true :=
  long_press_threshold initState (pollAt 5 0 false true)
    [pollAt 500 0 false true, pollAt 1005 0 false true] (pollAt 1006 0 false true)
    initState_index rfl (by decide) (by decide) (by decide)

/-- C2 fails when the clock reads 0 at the poll that first sees the button
held: no press is in progress, the button is held at clock 0 and still held at
clock 1001, where `1001 - 0 > 1000`, yet the poll at 1001 does not take the
long-press branch (line 158 records 1001 as the press start instead). -/
theorem long_press_missed_at_clock_zero :
    initState.encoderPressStart = 0 ∧
      (pollAt 0 0 false true).held = true ∧ (pollAt 1001 0 false true).held = true ∧
      longPressDuration < subU32 (pollAt 1001 0 false true).nowCheck (pollAt 0 0 false true).nowArm ∧
      fireLog initState [pollAt 0 0 false true, pollAt 1001 0 false true] = [false, false] := by
  decide

/-! ## The two branches of a poll -/

theorem ProcessEncoder_menu (s : State) (p : Poll)
    (h : (checkLongPress s p).showMenu = true) :
    ProcessEncoder s p = some (menuBranch (checkLongPress s p) p) := by
  unfold ProcessEncoder
  dsimp only
  rw [if_pos h]

theorem ProcessEncoder_param (s : State) (p : Poll)
    (h : (checkLongPress s p).showMenu = false) :
    ProcessEncoder s p = paramBranch (checkLongPress s p) p := by
  unfold ProcessEncoder
  dsimp only
  rw [if_neg (by simp [h])]

theorem checkLongPress_selectedMode (s : State) (p : Poll) :
    (checkLongPress s p).selectedMode = s.selectedMode := by
  obtain ⟨b, n, hc⟩ := checkLongPress_frame s p
  rw [hc]

theorem checkLongPress_activeMode (s : State) (p : Poll) :
    (checkLongPress s p).activeMode = s.activeMode := by
  obtain ⟨b, n, hc⟩ := checkLongPress_frame s p
  rw [hc]

theorem checkLongPress_currentParam (s : State) (p : Poll) :
    (checkLongPress s p).currentParam = s.currentParam := by
  obtain ⟨b, n, hc⟩ := checkLongPress_frame s p
  rw [hc]

/-! ## Long press: behaviour of the code on holds and releases -/

/-- C3 (code behaviour at the failing input). The button is pressed at clock 1
and stays held on every poll. The poll at 1002 takes the long-press branch and
clears the press start, the poll at 1003 records a new press start because the
button is still held, and the poll at 2004 takes the long-press branch a second
time in the same hold. -/
theorem long_press_fires_again_while_held :
    fireLog initState
      [pollAt 1 0 true true, pollAt 1002 0 false true, pollAt 1003 0 false true,
       pollAt 2004 0 false true] = [false, true, false, true] ∧
    (runPolls initState
      [pollAt 1 0 true true, pollAt 1002 0 false true, pollAt 1003 0 false true]).map
      (fun s => s.encoderPressStart) = some 1003 := by
  decide

/-- C4 (code behaviour at the failing input). The button is pressed at clock 1
and seen released at clock 500, after 499 ms. The release does not clear the
recorded press start, and the poll at clock 1002, with the button up and no
input, takes the long-press branch and opens the menu. -/
theorem short_press_opens_menu_after_release :
    (runPolls initState [pollAt 1 0 true true, pollAt 500 0 false false]).map
      (fun s => s.encoderPressStart) = some 1 ∧
    fireLog initState
      [pollAt 1 0 true true, pollAt 500 0 false false, pollAt 1002 0 false false]
      = [false, false, true] ∧
    (runPolls initState
      [pollAt 1 0 true true, pollAt 500 0 false false, pollAt 1002 0 false false]).map
      (fun s => s.showMenu) = some true := by
  decide

/-! ## Mode menu -/

/-- C5 (code behaviour at the failing input). A long press opens the menu with
highlight 0; a poll with increment -3 then computes `(0 + -3 + 2) % 2`, which
is -1 with the truncating remainder, and stores it as the highlight index. -/
theorem menu_highlight_leaves_range :
    (runPolls initState [pollAt 1 0 true true, pollAt 1002 0 false true]).map
      (fun s => (s.showMenu, s.selectedMode)) = some (true, 0) ∧
    (runPolls initState
      [pollAt 1 0 true true, pollAt 1002 0 false true, pollAt 1100 (-3) false false]).map
      (fun s => (s.showMenu, s.selectedMode)) = some (true, -1) := by
  decide

theorem rotateMode_single_step (sel inc : Int) (hsel : sel = 0 ∨ sel = 1)
    (hinc : inc = 1 ∨ inc = -1) : rotateMode sel inc = 1 - sel := by
  rcases hsel with h | h <;> rcases hinc with h1 | h1 <;> subst h <;> subst h1 <;> decide

theorem menuBranch_selectedMode (s : State) (p : Poll) :
    (menuBranch s p).selectedMode =
      if p.inc = 0 then s.selectedMode else rotateMode s.selectedMode p.inc := by
  unfold menuBranch menuClick menuRotate
  by_cases hi : p.inc = 0 <;> by_cases hp : p.pressed = true <;> simp [hi, hp]

theorem menuBranch_click (s : State) (p : Poll) (hp : p.pressed = true) :
    (menuBranch s p).showMenu = false ∧
      (menuBranch s p).activeMode = modeOfIndex (menuBranch s p).selectedMode := by
  unfold menuBranch menuClick menuRotate
  by_cases hi : p.inc = 0 <;> simp [hi, hp]

theorem menuBranch_no_click (s : State) (p : Poll) (hp : p.pressed = false) :
    (menuBranch s p).showMenu = s.showMenu ∧ (menuBranch s p).activeMode = s.activeMode := by
  unfold menuBranch menuClick menuRotate
  by_cases hi : p.inc = 0 <;> simp [hi, hp]

/-- C6. While the menu is shown, a poll with increment +1 or -1 from a highlight
index in {0, 1} leaves the other index as the highlight: from 0 a step of -1
(or +1) gives 1, from 1 a step of +1 (or -1) gives 0. -/
theorem menu_single_step_toggles (s : State) (p : Poll) (hmenu : s.showMenu = true)
    (hsel : s.selectedMode = 0 ∨ s.selectedMode = 1) (hinc : p.inc = 1 ∨ p.inc = -1) :
    (ProcessEncoder s p).map (fun s1 => s1.selectedMode) = some (1 - s.selectedMode) := by
  have hshown : (checkLongPress s p).showMenu = true := by
    rw [checkLongPress_showMenu, hmenu]; rfl
  have hne : p.inc ≠ 0 := by rcases hinc with h | h <;> rw [h] <;> decide
  rw [ProcessEncoder_menu s p hshown, Option.map_some', menuBranch_selectedMode, if_neg hne,
    checkLongPress_selectedMode, rotateMode_single_step _ _ hsel hinc]

/-- Instance of C6: in the menu with highlight 0, a poll with increment -1
leaves highlight 1. -/
theorem menu_single_step_toggles_witness :
    (ProcessEncoder menuState (pollAt 10 (-1) false false)).map (fun s1 => s1.selectedMode)
      = some (1 - menuState.selectedMode) :=
  menu_single_step_toggles menuState (pollAt 10 (-1) false false) rfl (Or.inl rfl) (Or.inr rfl)

/-- C7. A click while the menu is shown (after the long-press check of the same
poll) closes the menu and makes the highlighted mode, as left by any rotation of
the same poll, the active mode. In particular, from a state with the menu shown,
`PLATE` active and `PLATE` highlighted, a poll with increment +1 and no click
followed by a poll with a click and no increment ends with `NEBULAE` active and
the menu closed. -/
theorem mode_commit :
    (∀ (s : State) (p : Poll), (checkLongPress s p).showMenu = true → p.pressed = true →
      (ProcessEncoder s p).map (fun s1 => (s1.showMenu, s1.activeMode, s1.selectedMode)) =
        some (false,
          modeOfIndex (if p.inc = 0 then s.selectedMode else rotateMode s.selectedMode p.inc),
          if p.inc = 0 then s.selectedMode else rotateMode s.selectedMode p.inc)) ∧
    (∀ (s : State) (p1 p2 : Poll), s.showMenu = true → s.activeMode = ReverbMode.PLATE →
      s.selectedMode = 0 → p1.inc = 1 → p1.pressed = false → p2.inc = 0 → p2.pressed = true →
      (runPolls s [p1, p2]).map (fun s2 => (s2.activeMode, s2.showMenu)) =
        some (ReverbMode.NEBULAE, false)) := by
  have hgen : ∀ (s : State) (p : Poll), (checkLongPress s p).showMenu = true →
      p.pressed = true →
      (ProcessEncoder s p).map (fun s1 => (s1.showMenu, s1.activeMode, s1.selectedMode)) =
        some (false,
          modeOfIndex (if p.inc = 0 then s.selectedMode else rotateMode s.selectedMode p.inc),
          if p.inc = 0 then s.selectedMode else rotateMode s.selectedMode p.inc) := by
    intro s p hshown hp
    obtain ⟨h1, h2⟩ := menuBranch_click (checkLongPress s p) p hp
    rw [ProcessEncoder_menu s p hshown, Option.map_some', h1, h2, menuBranch_selectedMode,
      checkLongPress_selectedMode]
  refine ⟨hgen, ?_⟩
  intro s p1 p2 hmenu hact hsel hinc1 hp1 hinc2 hp2
  have hshown1 : (checkLongPress s p1).showMenu = true := by
    rw [checkLongPress_showMenu, hmenu]; rfl
  have hstep1 := ProcessEncoder_menu s p1 hshown1
  obtain ⟨k1, k2⟩ := menuBranch_no_click (checkLongPress s p1) p1 hp1
  have ksel := menuBranch_selectedMode (checkLongPress s p1) p1
  rw [checkLongPress_selectedMode, hsel, hinc1] at ksel
  have ksel1 : (menuBranch (checkLongPress s p1) p1).selectedMode = 1 := by
    rw [ksel]; decide
  have hshown2 : (checkLongPress (menuBranch (checkLongPress s p1) p1) p2).showMenu = true := by
    rw [checkLongPress_showMenu, k1, hshown1]; rfl
  have hstep2 := hgen (menuBranch (checkLongPress s p1) p1) p2 hshown2 hp2
  rw [ksel1, hinc2] at hstep2
  cases hres : ProcessEncoder (menuBranch (checkLongPress s p1) p1) p2 with
  | none => rw [hres] at hstep2; simp at hstep2
  | some s2 =>
    rw [hres] at hstep2
    simp only [Option.map_some', Option.some.injEq, Prod.mk.injEq] at hstep2
    simp only [runPolls, hstep1, Option.some_bind, hres, Option.map_some']
    rw [hstep2.1, hstep2.2.1]
    rfl

/-- Instance of C7: from the menu with `PLATE` active and highlighted, a poll
with increment +1 and then a poll with a click end with `NEBULAE` active and
the menu closed. -/
theorem mode_commit_witness :
    (runPolls menuState [pollAt 10 1 false false, pollAt 20 0 true true]).map
      (fun s2 => (s2.activeMode, s2.showMenu)) = some (ReverbMode.NEBULAE, false) :=
  mode_commit.2 menuState (pollAt 10 1 false false) (pollAt 20 0 true true)
    rfl rfl rfl rfl rfl rfl rfl

/-- C8 fails when the menu is already open with another highlight. The button
is held from clock 1; the menu opens at 1002; a step of +1 at 1500 moves the
highlight to 1 while `PLATE` (index 0) stays active; the poll at 2004, with no
rotation and no click, takes the long-press branch and leaves the menu shown
with highlight 1, not 0. -/
theorem menu_reentry_keeps_highlight :
    (runPolls initState
      [pollAt 1 0 true true, pollAt 1002 0 false true, pollAt 1003 0 false true,
       pollAt 1500 1 false true]).map
      (fun s => (longPressFires s (pollAt 2004 0 false true), s.showMenu, s.selectedMode,
        modeIndex s.activeMode)) = some (true, true, 1, 0) ∧
    (runPolls initState
      [pollAt 1 0 true true, pollAt 1002 0 false true, pollAt 1003 0 false true,
       pollAt 1500 1 false true, pollAt 2004 0 false true]).map
      (fun s => (s.showMenu, s.selectedMode, modeIndex s.activeMode)) = some (true, 1, 0) := by
  decide

theorem modeIndex_of_agree (k : Int) (m : ReverbMode) (h : modeOfIndex k = m)
    (hk : k = 0 ∨ k = 1) : k = modeIndex m := by
  subst h
  rcases hk with h | h <;> subst h <;> rfl

/-- C8 (amended). In every reachable state, a poll that takes the long-press
branch with no rotation and no click leaves the menu shown and leaves the
highlight index and the active mode as they were. If the menu was closed before
the poll, the mode that the highlight designates (`PLATE` for index 0,
`NEBULAE` otherwise) is the active mode, and a highlight index of 0 or 1 is the
index of the active mode. -/
theorem menu_entry_highlight (s : State) (p : Poll) (hr : Reachable s)
    (hinc : p.inc = 0) (hclick : p.pressed = false) (hfire : longPressFires s p = true) :
    (ProcessEncoder s p).map (fun s1 => (s1.showMenu, s1.selectedMode, s1.activeMode)) =
        some (true, s.selectedMode, s.activeMode) ∧
      (s.showMenu = false →
        modeOfIndex s.selectedMode = s.activeMode ∧
        (s.selectedMode = 0 ∨ s.selectedMode = 1 → s.selectedMode = modeIndex s.activeMode)) := by
  have hshown : (checkLongPress s p).showMenu = true := by
    rw [checkLongPress_showMenu, hfire]; simp
  obtain ⟨k1, k2⟩ := menuBranch_no_click (checkLongPress s p) p hclick
  constructor
  · rw [ProcessEncoder_menu s p hshown, Option.map_some', k1, k2, menuBranch_selectedMode,
      if_pos hinc, hshown, checkLongPress_selectedMode, checkLongPress_activeMode]
  · intro hclosed
    have hag := (reachable_inv s hr).2.2 hclosed
    exact ⟨hag, modeIndex_of_agree _ _ hag⟩

theorem clickedState_reachable : Reachable clickedState :=
  Reachable.step (p := pollAt 1 0 true true) Reachable.init rfl

/-- Instance of C8: after a click at clock 1 with the button kept down, the
poll at clock 1002 takes the long-press branch and opens the menu with the
highlight on the active mode. -/
theorem menu_entry_highlight_witness :
    (ProcessEncoder clickedState (pollAt 1002 0 false true)).map
        (fun s1 => (s1.showMenu, s1.selectedMode, s1.activeMode)) =
        some (true, clickedState.selectedMode, clickedState.activeMode) ∧
      modeOfIndex clickedState.selectedMode = clickedState.activeMode ∧
      clickedState.selectedMode = modeIndex clickedState.activeMode :=
  have h := menu_entry_highlight clickedState (pollAt 1002 0 false true)
    clickedState_reachable rfl rfl rfl
  ⟨h.1, (h.2 rfl).1, (h.2 rfl).2 (Or.inl rfl)⟩

/-! ## Display gate -/

/-- C9 (code behaviour at the failing input). A click at clock 5000 outside the
menu selects the next parameter and the parameter screen is drawn at 5000. The
click also records the press start, which the release does not clear: the poll
at clock 6001, with no input and the button up, takes the long-press branch, and
`AudioCallback` draws the mode menu at 7999 (and at 8001), not the parameter
screen. -/
theorem click_then_idle_draws_menu :
    (runPolls initState [pollAt 5000 0 true true]).map
      (fun s => (s.showMenu, s.currentParam, AudioCallbackDraw s 5000)) =
      some (false, 1, Screen.ParameterScreen) ∧
    fireLog initState [pollAt 5000 0 true true, pollAt 6001 0 false false] = [false, true] ∧
    (runPolls initState [pollAt 5000 0 true true, pollAt 6001 0 false false]).map
      (fun s => (AudioCallbackDraw s 7999, AudioCallbackDraw s 8001)) =
      some (Screen.ReverbMenu, Screen.ReverbMenu) := by
  decide

/-! ## Parameter selection -/

theorem click_outside_menu (s : State) (p : Poll) (hi : IndexInRange s)
    (hout : (checkLongPress s p).showMenu = false) (hp : p.pressed = true) :
    ∃ s1, ProcessEncoder s p = some s1 ∧ IndexInRange s1 ∧
      s1.currentParam = (s.currentParam + 1) % 4 := by
  have hci : IndexInRange (checkLongPress s p) := by
    unfold IndexInRange; rw [checkLongPress_currentParam]; exact hi
  obtain ⟨m, hm, mcp, -⟩ := paramRotate_spec (checkLongPress s p) p hci
  have hmi : IndexInRange m := ⟨mcp ▸ hci.1, mcp ▸ hci.2⟩
  have hnext := next_index_range s.currentParam hi.1 hi.2
  refine ⟨paramClick m p, ?_, (paramClick_spec m p hmi).1, ?_⟩
  · rw [ProcessEncoder_param s p hout]
    unfold paramBranch
    rw [hm]
    rfl
  · unfold paramClick
    rw [if_pos hp]
    show (i32 (m.currentParam + 1)).tmod kNumParams = _
    rw [mcp, checkLongPress_currentParam]
    exact hnext.1

theorem clicks_outside_menu (ps : List Poll) :
    ∀ s : State, IndexInRange s → (∀ p ∈ ps, p.pressed = true) →
      menuLog s ps = List.replicate ps.length false →
      ∃ s1, runPolls s ps = some s1 ∧
        s1.currentParam = (s.currentParam + (ps.length : Int)) % 4 := by
  induction ps with
  | nil =>
    intro s hi _ _
    refine ⟨s, rfl, ?_⟩
    have h0 := hi.1
    have h4 := hi.2
    simp only [List.length_nil, Nat.cast_zero, add_zero]
    omega
  | cons p ps ih =>
    intro s hi hall hlog
    simp only [menuLog, List.length_cons, List.replicate_succ, List.cons.injEq] at hlog
    obtain ⟨s1, h1, i1, c1⟩ := click_outside_menu s p hi hlog.1 (hall p (List.mem_cons_self p ps))
    rw [h1] at hlog
    obtain ⟨s2, h2, c2⟩ := ih s1 i1 (fun x hx => hall x (List.mem_cons_of_mem p hx)) hlog.2
    refine ⟨s2, by simp [runPolls, h1, h2], ?_⟩
    rw [c2, c1]
    simp only [List.length_cons, Nat.cast_add, Nat.cast_one]
    omega

/-- C10. From a state whose selected index is in `[0, 4)`, let every poll of a
run carry a click and be processed outside the menu (`showMenu` is false at
line 167 in each, which requires the menu to be closed at the start). Then the
run of `n` polls ends with `currentParam` advanced to
`(currentParam + n) mod 4`: one click gives `(currentParam + 1) mod 4`, and
four clicks return `currentParam` to its original value. -/
theorem selection_wrap (s : State) (ps : List Poll) (hidx : IndexInRange s)
    (hclick : ∀ p ∈ ps, p.pressed = true)
    (hout : menuLog s ps = List.replicate ps.length false) :
    (runPolls s ps).map (fun s1 => s1.currentParam) =
        some ((s.currentParam + (ps.length : Int)) % 4) ∧
      (ps.length = 4 →
        (runPolls s ps).map (fun s1 => s1.currentParam) = some s.currentParam) := by
  obtain ⟨s1, h1, c1⟩ := clicks_outside_menu ps s hidx hclick hout
  have h0 := hidx.1
  have h4 := hidx.2
  refine ⟨by rw [h1, Option.map_some', c1], fun hlen => ?_⟩
  rw [h1, Option.map_some', c1, hlen]
  congr 1
  simp only [Nat.cast_ofNat]
  omega

/-- Instance of C10: four clicks at clocks 10, 200, 400 and 600 from the start
state return `currentParam` to 0. -/
theorem selection_wrap_witness :
    (runPolls initState
      [pollAt 10 0 true true, pollAt 200 0 true true, pollAt 400 0 true true,
       pollAt 600 0 true true]).map (fun s1 => s1.currentParam) = some initState.currentParam :=
  (selection_wrap initState
    [pollAt 10 0 true true, pollAt 200 0 true true, pollAt 400 0 true true,
     pollAt 600 0 true true] initState_index (by decide) (by decide)).2 rfl

/-! ## Envelope follower -/

theorem runEnvelope_append (ws : List (ℚ × ℚ)) :
    ∀ (e : ℚ) (w : ℚ × ℚ),
      runEnvelope e (ws ++ [w]) = UpdateEnvelope (runEnvelope e ws) w.1 w.2 := by
  induction ws with
  | nil => intro e w; rfl
  | cons v ws ih => intro e w; exact ih (UpdateEnvelope e v.1 v.2) w

theorem runEnvelope_closed_form (lvl : ℚ) (ws : List (ℚ × ℚ))
    (hconst : ∀ w ∈ ws, |w.1| + |w.2| = lvl) :
    ∀ e : ℚ, runEnvelope e ws = lvl - (lvl - e) * (19 / 20) ^ ws.length := by
  induction ws with
  | nil => intro e; simp [runEnvelope]
  | cons w ws ih =>
    intro e
    have hw := hconst w (List.mem_cons_self w ws)
    rw [runEnvelope, ih (fun x hx => hconst x (List.mem_cons_of_mem w hx)), UpdateEnvelope, hw,
      List.length_cons, pow_succ]
    ring

theorem UpdateEnvelope_nonneg (e wetL wetR : ℚ) (he : 0 ≤ e) :
    0 ≤ UpdateEnvelope e wetL wetR := by
  unfold UpdateEnvelope
  have h1 := abs_nonneg wetL
  have h2 := abs_nonneg wetR
  linarith

theorem runEnvelope_nonneg (ws : List (ℚ × ℚ)) :
    ∀ e : ℚ, 0 ≤ e → 0 ≤ runEnvelope e ws := by
  induction ws with
  | nil => intro e he; exact he
  | cons w ws ih => intro e he; exact ih _ (UpdateEnvelope_nonneg e w.1 w.2 he)

/-- C11. Feed `UpdateEnvelope` wet pairs whose magnitude sum `|wetL| + |wetR|`
is the same value `L >= 0` on every sample, starting from `envelope = 0`. After
`n` samples the envelope is `L * (1 - 0.95^n)`; it does not decrease with one
more sample, it never exceeds `L`, and its distance to `L` after one more sample
is 0.95 times the distance before. -/
theorem envelope_convergence (lvl : ℚ) (ws : List (ℚ × ℚ)) (w : ℚ × ℚ) (hlvl : 0 ≤ lvl)
    (hconst : ∀ v ∈ ws, |v.1| + |v.2| = lvl) (hw : |w.1| + |w.2| = lvl) :
    runEnvelope 0 ws = lvl * (1 - (19 / 20) ^ ws.length) ∧
      runEnvelope 0 ws ≤ runEnvelope 0 (ws ++ [w]) ∧
      runEnvelope 0 ws ≤ lvl ∧
      lvl - runEnvelope 0 (ws ++ [w]) = (19 / 20) * (lvl - runEnvelope 0 ws) := by
  have hform := runEnvelope_closed_form lvl ws hconst 0
  have hpow : (0 : ℚ) ≤ (19 / 20) ^ ws.length := pow_nonneg (by norm_num) _
  have hmul : 0 ≤ lvl * (19 / 20) ^ ws.length := mul_nonneg hlvl hpow
  have hnext : runEnvelope 0 (ws ++ [w]) =
      (19 / 20) * runEnvelope 0 ws + (1 / 20) * lvl := by
    rw [runEnvelope_append, UpdateEnvelope, hw]
  refine ⟨by rw [hform]; ring, ?_, ?_, ?_⟩
  · rw [hnext, hform]; linarith
  · rw [hform]; linarith
  · rw [hnext]; ring

/-- Instance of C11: three samples with magnitude sum 1 (as `(1/2, -1/2)`)
and one more. -/
theorem envelope_convergence_witness :
    runEnvelope 0 [(1 / 2, -1 / 2), (1 / 2, -1 / 2), (1 / 2, -1 / 2)] =
        1 * (1 - (19 / 20) ^ [((1 : ℚ) / 2, (-1 : ℚ) / 2), (1 / 2, -1 / 2), (1 / 2, -1 / 2)].length) ∧
      runEnvelope 0 [(1 / 2, -1 / 2), (1 / 2, -1 / 2), (1 / 2, -1 / 2)] ≤
        runEnvelope 0 ([(1 / 2, -1 / 2), (1 / 2, -1 / 2), (1 / 2, -1 / 2)] ++ [(1 / 2, -1 / 2)]) ∧
      runEnvelope 0 [(1 / 2, -1 / 2), (1 / 2, -1 / 2), (1 / 2, -1 / 2)] ≤ 1 ∧
      1 - runEnvelope 0 ([(1 / 2, -1 / 2), (1 / 2, -1 / 2), (1 / 2, -1 / 2)] ++ [(1 / 2, -1 / 2)]) =
        (19 / 20) * (1 - runEnvelope 0 [(1 / 2, -1 / 2), (1 / 2, -1 / 2), (1 / 2, -1 / 2)]) :=
  envelope_convergence 1 [(1 / 2, -1 / 2), (1 / 2, -1 / 2), (1 / 2, -1 / 2)] (1 / 2, -1 / 2)
    (by norm_num) (by intro v hv; simp at hv; subst hv; norm_num [abs_of_nonneg, abs_of_neg])
    (by norm_num [abs_of_nonneg, abs_of_neg])

/-- C16. Starting from `envelope = 0`, after any sequence of `UpdateEnvelope`
calls, with wet samples of any sign, the envelope is not negative. -/
theorem envelope_never_negative (ws : List (ℚ × ℚ)) : 0 ≤ runEnvelope 0 ws :=
  runEnvelope_nonneg ws 0 (le_refl 0)

/-! ## Rotation outside the menu -/

theorem readParam_checkLongPress (s : State) (p : Poll) (i : Int) :
    readParam (checkLongPress s p) i = readParam s i := by
  obtain ⟨b, n, hc⟩ := checkLongPress_frame s p
  rw [hc]
  rfl

theorem checkLongPress_lastParamChangeTime (s : State) (p : Poll) :
    (checkLongPress s p).lastParamChangeTime = s.lastParamChangeTime := by
  obtain ⟨b, n, hc⟩ := checkLongPress_frame s p
  rw [hc]

theorem adjustParam_value (s : State) (d : Int) (hi : IndexInRange s) :
    ∃ r, adjustParam s d = some r ∧
      readParam r s.currentParam =
        (readParam s s.currentParam).map (fun v => fclamp (v + (d : ℚ) * (1 / 100)) 0 1) ∧
      (readParam s s.currentParam).isSome = true ∧
      (∀ i : Int, i ≠ s.currentParam → readParam r i = readParam s i) := by
  obtain ⟨h0, h4⟩ := hi
  have hc : s.currentParam = 0 ∨ s.currentParam = 1 ∨ s.currentParam = 2 ∨ s.currentParam = 3 := by
    omega
  rcases hc with h | h | h | h <;>
    simp only [adjustParam, readParam, writeParam, h] <;>
    refine ⟨_, rfl, by simp, by simp, ?_⟩ <;>
    intro i hne <;>
    simp [hne]

theorem ProcessEncoder_rotate_outside (s : State) (p : Poll) (hidx : IndexInRange s)
    (hout : (checkLongPress s p).showMenu = false) (hinc : p.inc ≠ 0) :
    ∃ r, adjustParam (checkLongPress s p) p.inc = some r ∧
      ProcessEncoder s p =
        some (paramClick { r with lastParamChangeTime := u32 p.nowRotate } p) := by
  have hci : IndexInRange (checkLongPress s p) := by
    unfold IndexInRange; rw [checkLongPress_currentParam]; exact hidx
  obtain ⟨r, hr, -⟩ := adjustParam_spec (checkLongPress s p) p.inc hci
  refine ⟨r, hr, ?_⟩
  rw [ProcessEncoder_param s p hout]
  unfold paramBranch paramRotate
  rw [if_pos hinc, hr]
  rfl

theorem readParam_paramClick (s : State) (p : Poll) (i : Int) :
    readParam (paramClick s p) i = readParam s i := by
  unfold paramClick
  split_ifs <;> rfl

theorem paramClick_activeMode (s : State) (p : Poll) :
    (paramClick s p).activeMode = s.activeMode := by
  unfold paramClick
  split_ifs <;> rfl

/-- C12. In a poll in which the menu is not shown after the long-press check and
the increment `d` is not zero, from a state whose selected index is inside the
array: the selected parameter `v` becomes `clamp(v + d * 0.01, 0, 1)`,
`lastParamChangeTime` becomes the clock value read in that poll (line 184, or
line 190 when the poll also has a click), the active mode is unchanged, and
every parameter other than the selected one is unchanged. -/
theorem rotate_outside_menu (s : State) (p : Poll) (hidx : IndexInRange s)
    (hout : (checkLongPress s p).showMenu = false) (hinc : p.inc ≠ 0) :
    (readParam s s.currentParam).isSome = true ∧
      (ProcessEncoder s p).map
          (fun s1 => (readParam s1 s.currentParam, s1.lastParamChangeTime, s1.activeMode)) =
        some ((readParam s s.currentParam).map
                (fun v => min (max (v + (p.inc : ℚ) * (1 / 100)) 0) 1),
              u32 (if p.pressed = true then p.nowClick else p.nowRotate), s.activeMode) ∧
      ∀ i : Int, i ≠ s.currentParam →
        (ProcessEncoder s p).map (fun s1 => readParam s1 i) = some (readParam s i) := by
  have hci : IndexInRange (checkLongPress s p) := by
    unfold IndexInRange; rw [checkLongPress_currentParam]; exact hidx
  obtain ⟨r, hr, hstep⟩ := ProcessEncoder_rotate_outside s p hidx hout hinc
  obtain ⟨r1, hr1, hval, hsome, hothers⟩ := adjustParam_value (checkLongPress s p) p.inc hci
  obtain ⟨r2, hr2, -, hact, -⟩ := adjustParam_spec (checkLongPress s p) p.inc hci
  rw [hr] at hr1 hr2
  cases hr1
  cases hr2
  rw [checkLongPress_currentParam, readParam_checkLongPress] at hval hsome
  rw [checkLongPress_activeMode] at hact
  have hread : ∀ i : Int,
      readParam (paramClick { r with lastParamChangeTime := u32 p.nowRotate } p) i =
        readParam r i := fun i => readParam_paramClick _ p i
  have hmode : (paramClick { r with lastParamChangeTime := u32 p.nowRotate } p).activeMode =
      s.activeMode := by rw [paramClick_activeMode]; exact hact
  have htime : (paramClick { r with lastParamChangeTime := u32 p.nowRotate } p).lastParamChangeTime
      = u32 (if p.pressed = true then p.nowClick else p.nowRotate) := by
    unfold paramClick
    split_ifs <;> rfl
  refine ⟨hsome, ?_, ?_⟩
  · rw [hstep, Option.map_some', hread, hval, htime, hmode]
    rfl
  · intro i hne
    rw [hstep, Option.map_some', hread, hothers i (by rw [checkLongPress_currentParam]; exact hne),
      readParam_checkLongPress]

/-- Instance of C12: from the start state a poll at clock 5000 with increment
+3 raises `decay` from 1/2 by 3/100; the other values stay. -/
theorem rotate_outside_menu_witness :
    (readParam initState initState.currentParam).isSome = true ∧
      (ProcessEncoder initState (pollAt 5000 3 false false)).map
          (fun s1 => (readParam s1 initState.currentParam, s1.lastParamChangeTime,
            s1.activeMode)) =
        some ((readParam initState initState.currentParam).map
                (fun v => min (max (v + ((pollAt 5000 3 false false).inc : ℚ) * (1 / 100)) 0) 1),
              u32 (if (pollAt 5000 3 false false).pressed = true
                then (pollAt 5000 3 false false).nowClick
                else (pollAt 5000 3 false false).nowRotate), initState.activeMode) ∧
      (ProcessEncoder initState (pollAt 5000 3 false false)).map (fun s1 => readParam s1 1) =
        some (readParam initState 1) :=
  have h := rotate_outside_menu initState (pollAt 5000 3 false false) initState_index
    (by decide) (by decide)
  ⟨h.1, h.2.1, h.2.2 1 (by decide)⟩

/-! ## Index bounds and frame properties of a poll -/

/-- C15. Every sequence of `ProcessEncoder` polls from the start state runs to
a state (no poll reads or writes `params` outside its four elements) in which
`currentParam` is in `[0, 4)`, so that `params[currentParam]` designates one of
the four parameters. -/
theorem selected_index_in_bounds (ps : List Poll) :
    ∃ s, runPolls initState ps = some s ∧ 0 ≤ s.currentParam ∧ s.currentParam < 4 ∧
      (readParam s s.currentParam).isSome = true := by
  obtain ⟨s, hs, hi, -, -⟩ := runPolls_spec ps initState initState_index
  obtain ⟨-, -, -, hsome, -⟩ := adjustParam_value s 0 hi
  exact ⟨s, hs, hi.1, hi.2, hsome⟩

/-- C17. A poll in which the menu is shown after the long-press check leaves
the four parameter values, `currentParam` and `lastParamChangeTime` as they
were, whatever its increment and click inputs. -/
theorem menu_poll_keeps_parameters (s : State) (p : Poll)
    (hshown : (checkLongPress s p).showMenu = true) :
    (ProcessEncoder s p).map
        (fun s1 => (s1.decay, s1.modDepth, s1.dampingFreq, s1.modRate, s1.currentParam,
          s1.lastParamChangeTime)) =
      some (s.decay, s.modDepth, s.dampingFreq, s.modRate, s.currentParam,
        s.lastParamChangeTime) := by
  obtain ⟨b, n, hc⟩ := checkLongPress_frame s p
  obtain ⟨m, b1, k, hm⟩ := menuBranch_frame (checkLongPress s p) p
  rw [ProcessEncoder_menu s p hshown, Option.map_some', hm, hc]

/-- Instance of C17: in the open menu a poll with increment +1 and a click
changes none of the parameter values, the selection or the time stamp. -/
theorem menu_poll_keeps_parameters_witness :
    (ProcessEncoder menuState (pollAt 4000 1 true true)).map
        (fun s1 => (s1.decay, s1.modDepth, s1.dampingFreq, s1.modRate, s1.currentParam,
          s1.lastParamChangeTime)) =
      some (menuState.decay, menuState.modDepth, menuState.dampingFreq, menuState.modRate,
        menuState.currentParam, menuState.lastParamChangeTime) :=
  menu_poll_keeps_parameters menuState (pollAt 4000 1 true true) rfl

theorem paramBranch_activeMode (s s1 : State) (p : Poll) (h : paramBranch s p = some s1) :
    s1.activeMode = s.activeMode := by
  unfold paramBranch paramRotate at h
  by_cases hinc : p.inc = 0
  · rw [if_neg (by simp [hinc])] at h
    simp only [Option.map_some', Option.some.injEq] at h
    rw [← h, paramClick_activeMode]
  · rw [if_pos hinc] at h
    cases ha : adjustParam s p.inc with
    | none => rw [ha] at h; simp at h
    | some r =>
      rw [ha] at h
      simp only [Option.map_some', Option.some.injEq] at h
      have hr : r.activeMode = s.activeMode := by
        unfold adjustParam readParam writeParam at ha
        by_cases c0 : s.currentParam = 0
        · simp [c0] at ha; rw [← ha]
        · by_cases c1 : s.currentParam = 1
          · simp [c1] at ha; rw [← ha]
          · by_cases c2 : s.currentParam = 2
            · simp [c2] at ha; rw [← ha]
            · by_cases c3 : s.currentParam = 3
              · simp [c3] at ha; rw [← ha]
              · simp [c0, c1, c2, c3] at ha
      rw [← h, paramClick_activeMode]
      exact hr

/-- C18. If a poll changes `activeMode`, the menu was shown in that poll after
the long-press check and the poll had a click; so a poll processed outside the
menu, or without a click, leaves `activeMode` as it was. A poll from a state
whose selected index is inside the array always has a result. -/
theorem active_mode_changes_only_by_commit (s : State) (p : Poll) :
    (∀ s1, ProcessEncoder s p = some s1 → s1.activeMode ≠ s.activeMode →
        (checkLongPress s p).showMenu = true ∧ p.pressed = true) ∧
      (∀ s1, ProcessEncoder s p = some s1 →
        (checkLongPress s p).showMenu = false ∨ p.pressed = false →
        s1.activeMode = s.activeMode) ∧
      (IndexInRange s → (ProcessEncoder s p).isSome = true) := by
  have hkeep : ∀ s1, ProcessEncoder s p = some s1 →
      (checkLongPress s p).showMenu = false ∨ p.pressed = false →
      s1.activeMode = s.activeMode := by
    intro s1 h1 hor
    cases hsm : (checkLongPress s p).showMenu with
    | false =>
      rw [ProcessEncoder_param s p hsm] at h1
      rw [paramBranch_activeMode _ _ p h1, checkLongPress_activeMode]
    | true =>
      have hp : p.pressed = false := by
        rcases hor with h | h
        · rw [hsm] at h; cases h
        · exact h
      rw [ProcessEncoder_menu s p hsm] at h1
      cases h1
      rw [(menuBranch_no_click _ p hp).2, checkLongPress_activeMode]
  refine ⟨?_, hkeep, ?_⟩
  · intro s1 h1 hne
    cases hsm : (checkLongPress s p).showMenu with
    | false => exact absurd (hkeep s1 h1 (Or.inl hsm)) hne
    | true =>
      cases hp : p.pressed with
      | false => exact absurd (hkeep s1 h1 (Or.inr hp)) hne
      | true => exact ⟨rfl, rfl⟩
  · intro hi
    obtain ⟨s1, h1, -⟩ := ProcessEncoder_spec s p hi
    rw [h1]
    rfl

/-- Instance of C18: in the open menu with `PLATE` active and `NEBULAE`
highlighted, a click changes the active mode; the menu was shown and the poll
had a click. -/
theorem active_mode_changes_only_by_commit_witness :
    (checkLongPress menuNebulaeState (pollAt 20 0 true false)).showMenu = true ∧
      (pollAt 20 0 true false).pressed = true :=
  (active_mode_changes_only_by_commit menuNebulaeState (pollAt 20 0 true false)).1
    { menuNebulaeState with activeMode := ReverbMode.NEBULAE, showMenu := false }
    rfl (by decide)

/-! ## `AudioCallback`: reverb configuration and screen choice -/

theorem processFrame_calls (L : DspLib) (s : State) (a : AudioState L) (frame : ℚ × ℚ) :
    (processFrame L s a frame).calls =
      if s.activeMode = ReverbMode.PLATE then
        [Call.plateReverbL_SetDecay s.decay, Call.plateReverbL_Process frame.1,
         Call.plateReverbR_Process frame.2]
      else
        [Call.fdnReverb_SetFeedback (s.decay * (9 / 10)), Call.fdnReverb_Process frame.1,
         Call.fdnReverb_Process frame.2] := by
  unfold processFrame
  split_ifs <;> rfl

theorem sampleLoop_calls (L : DspLib) (s : State) (block : List (ℚ × ℚ)) :
    ∀ (a : AudioState L) (c : Call), c ∈ (sampleLoop L s a block).calls →
      (∃ x, c = Call.plateReverbL_SetDecay x) ∨ (∃ x, c = Call.plateReverbL_Process x) ∨
      (∃ x, c = Call.plateReverbR_Process x) ∨ (∃ x, c = Call.fdnReverb_SetFeedback x) ∨
      (∃ x, c = Call.fdnReverb_Process x) := by
  induction block with
  | nil => intro a c hc; simp [sampleLoop] at hc
  | cons frame frames ih =>
    intro a c hc
    simp only [sampleLoop, List.mem_append] at hc
    rcases hc with hc | hc
    · rw [processFrame_calls] at hc
      split_ifs at hc <;> simp at hc <;> rcases hc with h | h | h <;> subst h <;> simp
    · exact ih _ c hc

/-- C13. In the sequence of calls of one `AudioCallback` run, on a block of any
size, the calls of the sample loop come first and contain no draw call, and one
draw call follows them. It is the mode menu if `showMenu` is set; otherwise the
parameter screen if `now - lastParamChangeTime < 3000`; otherwise the Plate
visualization if the active mode is `PLATE`, and the Nebulae visualization if
it is `NEBULAE`. -/
theorem screen_selection (L : DspLib) (s : State) (a : AudioState L) (block : List (ℚ × ℚ))
    (now : Nat) :
    (AudioCallback L s a block now).calls =
        (sampleLoop L s a block).calls ++ [Call.Draw (AudioCallbackDraw s now)] ∧
      (∀ sc, Call.Draw sc ∉ (sampleLoop L s a block).calls) ∧
      (s.showMenu = true → AudioCallbackDraw s now = Screen.ReverbMenu) ∧
      (s.showMenu = false → subU32 now s.lastParamChangeTime < 3000 →
        AudioCallbackDraw s now = Screen.ParameterScreen) ∧
      (s.showMenu = false → ¬ subU32 now s.lastParamChangeTime < 3000 →
        s.activeMode = ReverbMode.PLATE →
        AudioCallbackDraw s now = Screen.PlateVisualization) ∧
      (s.showMenu = false → ¬ subU32 now s.lastParamChangeTime < 3000 →
        s.activeMode = ReverbMode.NEBULAE →
        AudioCallbackDraw s now = Screen.NebulaeVisualization) := by
  refine ⟨rfl, ?_, ?_, ?_, ?_, ?_⟩
  · intro sc hmem
    have h := sampleLoop_calls L s block a _ hmem
    simp at h
  · intro h
    simp [AudioCallbackDraw, h]
  · intro h ht
    simp [AudioCallbackDraw, h, paramDisplayTimeout, ht]
  · intro h ht hm
    simp [AudioCallbackDraw, h, paramDisplayTimeout, ht, hm]
  · intro h ht hm
    simp [AudioCallbackDraw, h, paramDisplayTimeout, ht, hm]

/-- Instance of C13: from the start globals, a block of two frames at clock
3500 ends with the one draw call, of the Plate visualization. -/
theorem screen_selection_witness :
    (AudioCallback gainLib initState gainAudio [(1, 1), (1, 1)] 3500).calls =
        (sampleLoop gainLib initState gainAudio [(1, 1), (1, 1)]).calls ++
          [Call.Draw Screen.PlateVisualization] ∧
      AudioCallbackDraw initState 3500 = Screen.PlateVisualization :=
  have h := screen_selection gainLib initState gainAudio [(1, 1), (1, 1)] 3500
  ⟨h.2.2.2.2.1 rfl (by decide) rfl ▸ h.1, h.2.2.2.2.1 rfl (by decide) rfl⟩

/-- C14 (code behaviour at the failing input). No run of `AudioCallback` ever
calls `SetDecay` on `plateReverbR`, the plate reverb that processes the right
input. With `PLATE` active and `decay = 1/2`, the calls for one frame are
`plateReverbL.SetDecay(1/2)`, `plateReverbL.Process`, `plateReverbR.Process`;
with reverb objects that hold their setting, `plateReverbL` ends with setting
1/2 and `plateReverbR` keeps the setting it had before, 0. -/
theorem right_plate_decay_never_set :
    (∀ (L : DspLib) (s : State) (a : AudioState L) (block : List (ℚ × ℚ)) (now : Nat) (d : ℚ),
        Call.plateReverbR_SetDecay d ∉ (AudioCallback L s a block now).calls) ∧
      (AudioCallback gainLib initState gainAudio [(1, 1)] 0).calls =
        [Call.plateReverbL_SetDecay (1 / 2), Call.plateReverbL_Process 1,
         Call.plateReverbR_Process 1, Call.Draw Screen.ParameterScreen] ∧
      (AudioCallback gainLib initState gainAudio [(1, 1)] 0).audio.plateReverbL = (1 / 2 : ℚ) ∧
      (AudioCallback gainLib initState gainAudio [(1, 1)] 0).audio.plateReverbR = (0 : ℚ) := by
  refine ⟨?_, rfl, rfl, rfl⟩
  intro L s a block now d hmem
  have hmem1 : Call.plateReverbR_SetDecay d ∈ (sampleLoop L s a block).calls := by
    have h : Call.plateReverbR_SetDecay d ∈
        (sampleLoop L s a block).calls ++ [Call.Draw (AudioCallbackDraw s now)] := hmem
    simpa using h
  have h := sampleLoop_calls L s block a _ hmem1
  simp at h

end Cosmos
